import Mathlib

/-!
Shallow embedding of the core of revmicrosocks (src/sockssrv.c, src/server.c):
the SOCKS5 per-connection state machine, the authenticated-IP set, the
errno-to-reply mapping, the relay loop with half-close handling, the
reverse-mode dial back-off, and the bridge-mode worker path.

Machine integers are modelled as Nat (buffer bytes are values 0..255 read from
an unsigned char array; none of the verified properties depend on the byte
range).  The pthread rwlock around auth_ips is modelled as always succeeding;
socket system calls are modelled by explicit oracles (lists of outcomes).
-/

namespace RevMicroSocks

/-- Address family tag of `union sockaddr_union` (AF_UNSPEC / AF_INET / AF_INET6). -/
inductive Fam where
  | unspec
  | inet
  | inet6
deriving DecidableEq, Repr

/-- Model of `union sockaddr_union`: family tag, raw address bytes
(4 for IPv4, 16 for IPv6), and port.  `is_authed` ignores the port. -/
structure sockaddr_union where
  fam : Fam
  addr : List Nat
  port : Nat
deriving DecidableEq, Repr

/-- Number of address bytes compared by `is_authed`:
`af == AF_INET ? 4 : 16` (src/sockssrv.c:214). -/
def cmp_bytes (f : Fam) : Nat :=
  if f = Fam.inet then 4 else 16

/-- src/sockssrv.c:211-220 `is_authed`: same family and equal address bytes
(4 or 16 depending on the entry's family); the port is not compared. -/
def is_authed (client authedip : sockaddr_union) : Bool :=
  (authedip.fam == client.fam)
    && (client.addr.take (cmp_bytes authedip.fam) == authedip.addr.take (cmp_bytes authedip.fam))

/-- src/sockssrv.c:222-228 `is_in_authed_list`: linear scan, first hit wins. -/
def is_in_authed_list (caddr : sockaddr_union) (auth_ips : List sockaddr_union) : Bool :=
  auth_ips.any (fun a => is_authed caddr a)

/-- src/sockssrv.c:230-232 `add_auth_ip`: `sblist_add` appends the address. -/
def add_auth_ip (auth_ips : List sockaddr_union) (caddr : sockaddr_union) :
    List sockaddr_union :=
  auth_ips ++ [caddr]

/-- `enum authmethod` values returned by `check_auth_method`
(AM_GSSAPI is declared in the enum but never returned). -/
inductive authmethod where
  | am_no_auth
  | am_gssapi
  | am_username
  | am_invalid
deriving DecidableEq, Repr

/-- Wire code of an auth method (0x00 / 0x01 / 0x02 / 0xFF). -/
def am_code : authmethod → Nat
  | authmethod.am_no_auth => 0
  | authmethod.am_gssapi => 1
  | authmethod.am_username => 2
  | authmethod.am_invalid => 255

/-- The scan loop of src/sockssrv.c:240-256: walk the offered methods while
`idx < n && n_methods > 0`.  On AM_NO_AUTH: accept if no username is
configured, else accept if the allowlist exists and contains the peer.
On AM_USERNAME: accept if a username is configured.  Otherwise advance.
`u` is `auth_user != NULL`; `ips` is the `auth_ips` list (`none` = NULL).
The rwlock rdlock is modelled as succeeding. -/
def cam_scan (buf : Nat → Nat) (n : Nat) (c : sockaddr_union) (u : Bool)
    (ips : Option (List sockaddr_union)) : Nat → Nat → authmethod
  | _, 0 => authmethod.am_invalid
  | idx, nm + 1 =>
    if idx < n then
      if buf idx = 0 then
        (if !u then authmethod.am_no_auth
         else match ips with
           | some l =>
               if is_in_authed_list c l then authmethod.am_no_auth
               else cam_scan buf n c u ips (idx + 1) nm
           | none => cam_scan buf n c u ips (idx + 1) nm)
      else if buf idx = 2 then
        (if u then authmethod.am_username
         else cam_scan buf n c u ips (idx + 1) nm)
      else cam_scan buf n c u ips (idx + 1) nm
    else authmethod.am_invalid

/-- src/sockssrv.c:234-258 `check_auth_method`.  `buf` is the 1024-byte receive
buffer (modelled as a total function on indices; bytes at index ≥ n are stale
data the function must not depend on), `n` the number of bytes received. -/
def check_auth_method (buf : Nat → Nat) (n : Nat) (c : sockaddr_union)
    (u : Bool) (ips : Option (List sockaddr_union)) : authmethod :=
  if buf 0 ≠ 5 then authmethod.am_invalid
  else if 1 ≥ n then authmethod.am_invalid
  else cam_scan buf n c u ips 2 (buf 1)

/-- `enum socksstate` (src/sockssrv.c:79-83). -/
inductive socksstate where
  | ss_1_connected
  | ss_2_need_auth
  | ss_3_authed
deriving DecidableEq, Repr

/-- The SS_1_CONNECTED arm of `handshake` (src/sockssrv.c:347-353): compute the
method, update the state (NO_AUTH → SS_3_AUTHED, USERNAME → SS_2_NEED_AUTH),
send `[5, method]`, and terminate (`return -1`) when the method is invalid.
Result: (reply bytes, `some next_state` or `none` when the connection ends). -/
def handshake_s1 (buf : Nat → Nat) (n : Nat) (c : sockaddr_union)
    (u : Bool) (ips : Option (List sockaddr_union)) :
    List Nat × Option socksstate :=
  let am := check_auth_method buf n c u ips
  ([5, am_code am],
   match am with
   | authmethod.am_no_auth => some socksstate.ss_3_authed
   | authmethod.am_username => some socksstate.ss_2_need_auth
   | authmethod.am_gssapi => some socksstate.ss_1_connected
   | authmethod.am_invalid => none)

/-- Whether the NO_AUTH shortcut applies for peer `c`:
the allowlist exists and contains `c` (src/sockssrv.c:243-249). -/
def allowed_of (c : sockaddr_union) (ips : Option (List sockaddr_union)) : Bool :=
  match ips with
  | some l => is_in_authed_list c l
  | none => false

/-- Acceptability of one offered method byte, as decided inside the scan loop:
0x00 is acceptable iff no username is configured or the peer is allowlisted;
0x02 is acceptable iff a username is configured. -/
def acceptable (u allowed : Bool) (m : Nat) : Option authmethod :=
  if m = 0 then (if !u || allowed then some authmethod.am_no_auth else none)
  else if m = 2 then (if u then some authmethod.am_username else none)
  else none

/-- First acceptable method of a list, in the client's order;
AM_INVALID when none is acceptable. -/
def first_acceptable (u allowed : Bool) : List Nat → authmethod
  | [] => authmethod.am_invalid
  | m :: ms =>
    match acceptable u allowed m with
    | some a => a
    | none => first_acceptable u allowed ms

/-- The method bytes actually scanned from a greeting: `buf[2..]`, limited both
by the advertised count `buf[1]` and by the received length `n`. -/
def greet_methods (buf : Nat → Nat) (n : Nat) : List Nat :=
  (List.range (min (buf 1) (n - 2))).map (fun i => buf (2 + i))

/-- The allowlist as built by `main` (src/sockssrv.c:467-484): `auth_ips` is
allocated iff `-w` or `-1` was given; `-w` entries are appended in order via
`add_auth_ip` (no membership test on this path).  `one_flag` is `-1`,
`w_list` the resolved `-w` addresses. -/
def auth_ips_config (w_list : List sockaddr_union) (one_flag : Bool) :
    Option (List sockaddr_union) :=
  if one_flag ∨ w_list ≠ [] then some w_list else none

/-- The allowlist update of the SS_2_NEED_AUTH arm (src/sockssrv.c:360-364):
after a successful credential check, if `auth_ips` exists, take the writer
lock (modelled as succeeding) and append the peer unless already present. -/
def handshake_s2_update (auth_ips : Option (List sockaddr_union))
    (caddr : sockaddr_union) : Option (List sockaddr_union) :=
  match auth_ips with
  | some ips =>
      some (if is_in_authed_list caddr ips then ips else add_auth_ip ips caddr)
  | none => none

/-- The SS_2_NEED_AUTH arm of `handshake` (src/sockssrv.c:354-365), given the
result `ret` of `check_credentials`: send `[1, ret]`; on failure terminate
(`none`); on success move to SS_3_AUTHED and update the allowlist. -/
def handshake_s2 (ret : Nat) (auth_ips : Option (List sockaddr_union))
    (caddr : sockaddr_union) :
    List Nat × Option (socksstate × Option (List sockaddr_union)) :=
  ([1, ret],
   if ret ≠ 0 then none
   else some (socksstate.ss_3_authed, handshake_s2_update auth_ips caddr))

/-- The per-connection add performed while holding the writer lock
(src/sockssrv.c:360-364), on a bare list. -/
def runtime_auth_add (ips : List sockaddr_union) (c : sockaddr_union) :
    List sockaddr_union :=
  if is_in_authed_list c ips then ips else add_auth_ip ips c

/-- `n` repeated successful authentications from peer `c`, starting from
allowlist contents `s`. -/
def repeat_auth (c : sockaddr_union) (s : List sockaddr_union) : Nat → List sockaddr_union
  | 0 => s
  | n + 1 => runtime_auth_add (repeat_auth c s n) c

/-- Number of entries of the list matching peer `c` under `is_authed`. -/
def auth_entry_count (c : sockaddr_union) (ips : List sockaddr_union) : Nat :=
  (ips.filter (fun a => is_authed c a)).length

/-- The errnos named in the switch of `connect_socks_target`
(src/sockssrv.c:173-191); `other` stands for every errno not named there. -/
inductive CErrno where
  | etimedout
  | eprototype
  | eprotonosupport
  | eafnosupport
  | econnrefused
  | enetdown
  | enetunreach
  | ehostunreach
  | ebadf
  | other
deriving DecidableEq, Repr

/-- The errno switch of `connect_socks_target` (src/sockssrv.c:173-191),
returning the `enum errorcode` value (EBADF falls through to the default). -/
def errno_to_ec : CErrno → Nat
  | CErrno.etimedout => 6
  | CErrno.eprototype => 8
  | CErrno.eprotonosupport => 8
  | CErrno.eafnosupport => 8
  | CErrno.econnrefused => 5
  | CErrno.enetdown => 3
  | CErrno.enetunreach => 3
  | CErrno.ehostunreach => 4
  | CErrno.ebadf => 1
  | CErrno.other => 1

/-- Value returned by `connect_socks_target` when socket creation, bind or
connect fails with errno `e`: the negated error code (`return -EC_...`). -/
def connect_errno_result (e : CErrno) : Int :=
  -(errno_to_ec e : Int)

/-- src/sockssrv.c:267-272 `send_error`: the 10-byte reply
`{5, ec, 0, 1 /*AT_IPV4*/, 0,0,0,0, 0,0}`. -/
def send_error_bytes (ec : Nat) : List Nat :=
  [5, ec, 0, 1, 0, 0, 0, 0, 0, 0]

/-- The SS_3_AUTHED arm of `handshake` (src/sockssrv.c:366-373), given the
value `ret` of `connect_socks_target`: on `ret < 0` send the error reply with
code `-ret` and terminate (`none`); otherwise send the success reply and hand
the upstream descriptor to the caller. -/
def handshake_s3 (ret : Int) : List Nat × Option Int :=
  if ret < 0 then (send_error_bytes (Int.toNat (-ret)), none)
  else (send_error_bytes 0, some ret)

/-- Model of `struct addrinfo` as far as `addr_choose` inspects it: the family
plus an opaque tag standing for the rest of the record (so that distinct
candidates of the same family stay distinct). -/
structure addrinfo_t where
  fam : Fam
  tag : Nat
deriving DecidableEq, Repr

/-- src/sockssrv.c:123-130 `addr_choose`: if the bind address family is
AF_UNSPEC return the head of the list; otherwise return the first candidate
whose family matches, falling back to the head when none does. -/
def addr_choose (list : List addrinfo_t) (bindaddr : sockaddr_union) :
    Option addrinfo_t :=
  if bindaddr.fam = Fam.unspec then list.head?
  else
    match list.find? (fun p => p.fam = bindaddr.fam) with
    | some p => some p
    | none => list.head?

/-- The sleep used after the k-th consecutive failed reverse-mode dial
(src/sockssrv.c:551-558): `sleeptime` starts at 1 and each failure sets
`sleeptime = MIN(sleeptime*2, 60)` after sleeping. -/
def reverse_sleep : Nat → Nat
  | 0 => 1
  | k + 1 => min (reverse_sleep k * 2) 60

/-- Modelled from the spec sentence of the claim: a back-off that starts at
1 s and doubles after every failure up to a cap of 300 s would sleep
`min(2^k, 300)` after the k-th failure.  Kept for comparison with
`reverse_sleep`, which is what the code does. -/
def spec_claim_sleep (k : Nat) : Nat :=
  min (2 ^ k) 300

/-- The reverse-mode dial loop (src/sockssrv.c:552-558) over an oracle of dial
outcomes (`true` = `server_connect` returned a descriptor ≥ 0): returns the
list of sleeps performed before the first success, `none` when the oracle
holds no success (the real loop would still be retrying). -/
def reverse_dial_loop (s : Nat) : List Bool → Option (List Nat)
  | [] => none
  | ok :: rest =>
    if ok then some []
    else (reverse_dial_loop (min (s * 2) 60) rest).map (fun t => s :: t)

/-- How the worker's client socket was obtained (accept in listen mode,
`server_connect` in reverse mode).  `clientthread` never inspects this. -/
inductive arrival where
  | accepted
  | dialed
deriving DecidableEq, Repr

/-- Observable actions of `clientthread` (src/sockssrv.c:379-397). -/
inductive CTEv where
  | acceptSecondary
  | handshakeRun
  | relayRun
  | closeRemote
  | closeClient
deriving DecidableEq, Repr

/-- src/sockssrv.c:379-397 `clientthread`: when `connector_server` is set the
worker accepts one connection on the secondary listener (no SOCKS handshake at
all); otherwise it runs `handshake`.  If a second descriptor was obtained the
relay runs and the remote side is closed; the client socket is always closed.
`secondary_ok` is the outcome of `server_waitclient(connector_server, ..)`,
`handshake_ok` whether `handshake` returned a descriptor.  The arrival mode
and the configured credentials are parameters only to record that the code
ignores them on this path. -/
def clientthread_trace (bridge_mode : Bool) (arr : arrival) (auth_user : Bool)
    (secondary_ok handshake_ok : Bool) : List CTEv :=
  if bridge_mode then
    (if secondary_ok then
      [CTEv.acceptSecondary, CTEv.relayRun, CTEv.closeRemote, CTEv.closeClient]
     else [CTEv.acceptSecondary, CTEv.closeClient])
  else
    (if handshake_ok then
      [CTEv.handshakeRun, CTEv.relayRun, CTEv.closeRemote, CTEv.closeClient]
     else [CTEv.handshakeRun, CTEv.closeClient])

/-- src/sockssrv.c:534-541: `connector_server` is set iff a secondary port was
given (`-C` with a nonzero port). -/
def connector_configured (connector_port : Nat) : Bool :=
  connector_port ≠ 0

/-- A worker's observable actions as a function of the configured secondary
port, arrival mode, credential configuration and socket outcomes. -/
def worker_trace (connector_port : Nat) (arr : arrival) (auth_user : Bool)
    (secondary_ok handshake_ok : Bool) : List CTEv :=
  clientthread_trace (connector_configured connector_port) arr auth_user
    secondary_ok handshake_ok

/-- Outcomes of the `write` calls of the inner loop of `copyloop`
(src/sockssrv.c:311-315): a return value `m ≥ 0`, or a negative return. -/
inductive WEv where
  | wok (m : Nat)
  | werr
deriving DecidableEq, Repr

/-- Result of the inner write loop: full delivery with remaining write oracle,
a write error (`copyloop` returns), or an exhausted oracle (the real loop
would be blocked in `write`). -/
inductive WRes where
  | ok (rest : List WEv)
  | fail
  | stuck
deriving DecidableEq, Repr

/-- src/sockssrv.c:311-315: `while(sent < n) { m = write(...); if(m < 0)
return; sent += m; }`, consuming one oracle entry per `write` call. -/
def write_all (sent target : Nat) (ws : List WEv) : WRes :=
  if sent < target then
    match ws with
    | [] => WRes.stuck
    | WEv.wok m :: rest => write_all (sent + m) target rest
    | WEv.werr :: _ => WRes.fail
  else WRes.ok ws
termination_by ws.length

/-- Outcomes of `poll` and `read` in `copyloop`, in the order the loop consumes
them.  `pollReady1`/`pollReady2` is a successful poll whose readable side the
loop resolves to fd1 resp. fd2 (src/sockssrv.c:294); `pollIntr` is
EINTR/EAGAIN (`continue`); `readRet bs` is a read of `bs.length` bytes
(`[]` = end of stream); `readErr` a negative read. -/
inductive IOEv where
  | pollReady1
  | pollReady2
  | pollTimeout
  | pollIntr
  | pollErr
  | readRet (bs : List Nat)
  | readErr
deriving DecidableEq, Repr

/-- Observable actions of `copyloop`: a `poll` call, a `read` from fd1
(`readC true`) or fd2 (`readC false`), a fully delivered chunk to a side, the
`shutdown(outfd, SHUT_WR)` of the half-close path, and the return from
`copyloop` (after which `clientthread` closes both descriptors). -/
inductive CEv where
  | pollC
  | readC (side1 : Bool)
  | writeC (side1 : Bool) (bs : List Nat)
  | shutdownWr (side1 : Bool)
  | ret
deriving DecidableEq, Repr

/-- The unidirectional phase of `copyloop` (`bidir == 0`, src/sockssrv.c:281-319
with the poll skipped): read from side `z` only, forward to the other side;
a read of 0 or a negative read returns (`if(n == 0) { if(!bidir) return; ... }`
resp. `if(n < 0) return`).  An exhausted oracle, or a poll-shaped oracle entry
where a read outcome is due, ends the trace without a return (blocked). -/
def copyloop_uni (z : Bool) : List IOEv → List WEv → List CEv
  | [], _ => []
  | IOEv.readErr :: _, _ => [CEv.readC z, CEv.ret]
  | IOEv.readRet [] :: _, _ => [CEv.readC z, CEv.ret]
  | IOEv.readRet (b :: bs) :: rest, ws =>
    (match write_all 0 (b :: bs).length ws with
     | WRes.ok ws2 => CEv.readC z :: CEv.writeC (!z) (b :: bs) :: copyloop_uni z rest ws2
     | WRes.fail => [CEv.readC z, CEv.ret]
     | WRes.stuck => [CEv.readC z])
  | _ :: _, _ => []

/-- The bidirectional phase of `copyloop` (src/sockssrv.c:281-319, `bidir == 1`):
poll with the 15-minute timeout (timeout or a non-transient poll error
returns, EINTR/EAGAIN polls again), read from the side poll reported
readable, forward the chunk and poll again; on end of stream shut down the
write half of the other side and continue in the unidirectional phase reading
from the other side (`shutdown(outfd, SHUT_WR); bidir = 0; infd = outfd`).
`infd1` is the `infd` loop variable (kept across EINTR, reassigned by each
successful poll). -/
def copyloop_bid (infd1 : Bool) : List IOEv → List WEv → List CEv
  | IOEv.pollIntr :: rest, ws => CEv.pollC :: copyloop_bid infd1 rest ws
  | IOEv.pollTimeout :: _, _ => [CEv.pollC, CEv.ret]
  | IOEv.pollErr :: _, _ => [CEv.pollC, CEv.ret]
  | IOEv.pollReady1 :: IOEv.readErr :: _, _ => [CEv.pollC, CEv.readC true, CEv.ret]
  | IOEv.pollReady1 :: IOEv.readRet [] :: rest, ws =>
    CEv.pollC :: CEv.readC true :: CEv.shutdownWr false :: copyloop_uni false rest ws
  | IOEv.pollReady1 :: IOEv.readRet (b :: bs) :: rest, ws =>
    (match write_all 0 (b :: bs).length ws with
     | WRes.ok ws2 =>
         CEv.pollC :: CEv.readC true :: CEv.writeC false (b :: bs) :: copyloop_bid true rest ws2
     | WRes.fail => [CEv.pollC, CEv.readC true, CEv.ret]
     | WRes.stuck => [CEv.pollC, CEv.readC true])
  | IOEv.pollReady1 :: _, _ => [CEv.pollC]
  | IOEv.pollReady2 :: IOEv.readErr :: _, _ => [CEv.pollC, CEv.readC false, CEv.ret]
  | IOEv.pollReady2 :: IOEv.readRet [] :: rest, ws =>
    CEv.pollC :: CEv.readC false :: CEv.shutdownWr true :: copyloop_uni true rest ws
  | IOEv.pollReady2 :: IOEv.readRet (b :: bs) :: rest, ws =>
    (match write_all 0 (b :: bs).length ws with
     | WRes.ok ws2 =>
         CEv.pollC :: CEv.readC false :: CEv.writeC true (b :: bs) :: copyloop_bid false rest ws2
     | WRes.fail => [CEv.pollC, CEv.readC false, CEv.ret]
     | WRes.stuck => [CEv.pollC, CEv.readC false])
  | IOEv.pollReady2 :: _, _ => [CEv.pollC]
  | _, _ => []

/-- src/sockssrv.c:274-320 `copyloop`: starts in the bidirectional phase
(`bidir = 1`; `infd` is uninitialised until the first poll assigns it, so its
initial value is irrelevant). -/
def copyloop (l : List IOEv) (ws : List WEv) : List CEv :=
  copyloop_bid true l ws

/-- A concrete IPv4 address as a `-w` whitelist entry (1.2.3.4). -/
def wl_addr : sockaddr_union :=
  { fam := Fam.inet, addr := [1, 2, 3, 4], port := 0 }

/-- A concrete IPv4 peer address (9.9.9.9, source port 4242). -/
def peer_addr : sockaddr_union :=
  { fam := Fam.inet, addr := [9, 9, 9, 9], port := 4242 }

/-- A concrete greeting: version 5, 2 methods offered, USERNAME before
NO_AUTH (`05 02 02 00`); bytes beyond the message are 0. -/
def greet_user_first : Nat → Nat :=
  fun i => [5, 2, 2, 0].getD i 0

/-- A concrete greeting: version 5, 1 method offered, NO_AUTH (`05 01 00`). -/
def greet_no_auth : Nat → Nat :=
  fun i => [5, 1, 0].getD i 0

/-! Helper lemmas. -/

theorem is_authed_self (c : sockaddr_union) : is_authed c c = true := by
  simp [is_authed]

theorem is_in_authed_list_append_self (c : sockaddr_union) (l : List sockaddr_union) :
    is_in_authed_list c (l ++ [c]) = true := by
  simp [is_in_authed_list, is_authed_self]

theorem auth_entry_count_append_self (c : sockaddr_union) (l : List sockaddr_union) :
    auth_entry_count c (l ++ [c]) = auth_entry_count c l + 1 := by
  simp [auth_entry_count, List.filter_append, is_authed_self]

theorem auth_entry_count_eq_zero (c : sockaddr_union) (s : List sockaddr_union)
    (hs : is_in_authed_list c s = false) : auth_entry_count c s = 0 := by
  simp only [is_in_authed_list, List.any_eq_false] at hs
  simp only [auth_entry_count, List.length_eq_zero, List.filter_eq_nil_iff]
  intro a ha
  exact fun h => by simp [hs a ha] at h

theorem repeat_auth_stable (c : sockaddr_union) (s : List sockaddr_union)
    (hs : is_in_authed_list c s = false) :
    ∀ n, 1 ≤ n → repeat_auth c s n = s ++ [c] := by
  intro n hn
  induction n with
  | zero => omega
  | succ m ih =>
    cases Nat.eq_or_lt_of_le hn with
    | inl h =>
      have hm : m = 0 := by omega
      subst hm
      simp [repeat_auth, runtime_auth_add, hs, add_auth_ip]
    | inr h =>
      have hm : 1 ≤ m := by omega
      have := ih hm
      simp [repeat_auth, this, runtime_auth_add, is_in_authed_list_append_self]

/-! Claim theorems. -/

/-- C7: for every IP address, any number `n ≥ 1` of repeated successful
username/password authentications from that IP leaves exactly one matching
entry in AuthIPSet (starting from any contents not yet containing that IP),
because the runtime add tests membership under the writer lock and appends
only if absent; the add is idempotent. -/
theorem c7_auth_once_idempotent (c : sockaddr_union) (s : List sockaddr_union)
    (n : Nat) (hn : 1 ≤ n) (hs : is_in_authed_list c s = false) :
    auth_entry_count c (repeat_auth c s n) = 1
    ∧ (∀ t a, runtime_auth_add (runtime_auth_add t a) a = runtime_auth_add t a) := by
  constructor
  · rw [repeat_auth_stable c s hs n hn, auth_entry_count_append_self,
      auth_entry_count_eq_zero c s hs]
  · intro t a
    by_cases h : is_in_authed_list a t = true
    · simp [runtime_auth_add, h]
    · simp only [runtime_auth_add, h, if_neg, Bool.not_eq_true] at h ⊢
      simp [h, add_auth_ip, is_in_authed_list_append_self]

/-- Witness for C7 at a concrete input: two successive authentications of
9.9.9.9 against an allowlist holding only 1.2.3.4. -/
theorem c7_auth_once_idempotent_witness :
    auth_entry_count peer_addr (repeat_auth peer_addr [wl_addr] 2) = 1 :=
  (c7_auth_once_idempotent peer_addr [wl_addr] 2 (by decide) (by decide)).1

/-- C2 counterexample: with only the static whitelist `-w 1.2.3.4` configured
and auth-once disabled (`one_flag = false`), a successful authentication from
9.9.9.9 DOES append the peer to AuthIPSet, because the add at
src/sockssrv.c:360 is guarded by `auth_ips != NULL`, which also holds when
only `-w` was given. -/
theorem c2_counterexample :
    auth_ips_config [wl_addr] false = some [wl_addr]
    ∧ handshake_s2_update (auth_ips_config [wl_addr] false) peer_addr
        = some [wl_addr, peer_addr]
    ∧ is_in_authed_list peer_addr [wl_addr] = false := by
  refine ⟨by decide, ?_, by decide⟩
  decide

/-- C2 amended: after a successful username/password check the peer's address
is added to AuthIPSet (if not already present) if and only if the allowlist
structure exists, i.e. whenever `-1` or `-w` was given - not only in auth-once
mode.  With neither option the set does not exist and nothing is added; when
the peer is already present the set is unchanged. -/
theorem c2_add_iff_allowlist_exists (w_list : List sockaddr_union)
    (one_flag : Bool) (p : sockaddr_union) :
    (auth_ips_config w_list one_flag = none ↔ (one_flag = false ∧ w_list = []))
    ∧ (∀ l, auth_ips_config w_list one_flag = some l →
        is_in_authed_list p ((handshake_s2_update (some l) p).getD []) = true)
    ∧ (∀ l, is_in_authed_list p l = true → handshake_s2_update (some l) p = some l)
    ∧ handshake_s2_update none p = none := by
  refine ⟨?_, ?_, ?_, rfl⟩
  · unfold auth_ips_config
    split
    · rename_i h
      simp only [reduceCtorEq, false_iff]
      intro hc
      rcases h with h1 | h2
      · rw [hc.1] at h1; exact Bool.false_ne_true h1
      · exact h2 hc.2
    · rename_i h
      push_neg at h
      simp [h.1, h.2, Bool.eq_false_iff]
  · intro l _
    unfold handshake_s2_update
    by_cases h : is_in_authed_list p l = true
    · simp [h]
    · simp only [Bool.not_eq_true] at h
      simp [h, add_auth_ip, is_in_authed_list_append_self]
  · intro l h
    simp [handshake_s2_update, h]

/-- Witness for C2's amended theorem at a concrete input: allowlist from
`-w 1.2.3.4` with auth-once off, peer 9.9.9.9 ends up in the set. -/
theorem c2_add_iff_allowlist_exists_witness :
    is_in_authed_list peer_addr
      ((handshake_s2_update (some [wl_addr]) peer_addr).getD []) = true :=
  (c2_add_iff_allowlist_exists [wl_addr] false peer_addr).2.1 [wl_addr] (by decide)

/-- C4: when the outbound socket creation, bind or connect of a CONNECT
request fails, the errno maps to the SOCKS reply code as ETIMEDOUT → 0x06,
EPROTOTYPE/EPROTONOSUPPORT/EAFNOSUPPORT → 0x08, ECONNREFUSED → 0x05,
ENETDOWN/ENETUNREACH → 0x03, EHOSTUNREACH → 0x04, anything else → 0x01, and
that code is the second byte of the 10-byte reply sent before the connection
is terminated. -/
theorem c4_errno_mapping :
    errno_to_ec CErrno.etimedout = 6
    ∧ errno_to_ec CErrno.eprototype = 8
    ∧ errno_to_ec CErrno.eprotonosupport = 8
    ∧ errno_to_ec CErrno.eafnosupport = 8
    ∧ errno_to_ec CErrno.econnrefused = 5
    ∧ errno_to_ec CErrno.enetdown = 3
    ∧ errno_to_ec CErrno.enetunreach = 3
    ∧ errno_to_ec CErrno.ehostunreach = 4
    ∧ errno_to_ec CErrno.ebadf = 1
    ∧ errno_to_ec CErrno.other = 1
    ∧ (∀ e : CErrno,
        (handshake_s3 (connect_errno_result e)).1.length = 10
        ∧ (handshake_s3 (connect_errno_result e)).1.get? 1 = some (errno_to_ec e)
        ∧ (handshake_s3 (connect_errno_result e)).2 = none) := by
  refine ⟨rfl, rfl, rfl, rfl, rfl, rfl, rfl, rfl, rfl, rfl, ?_⟩
  intro e
  cases e <;> decide

/-- C5: every CONNECT whose upstream connection succeeds (the returned
descriptor is ≥ 0) is answered with exactly the 10 bytes
`05 00 00 01 00 00 00 00 00 00`, whatever the request contained, and the
descriptor is handed to the relay. -/
theorem c5_success_reply (fd : Int) (h : 0 ≤ fd) :
    handshake_s3 fd = ([5, 0, 0, 1, 0, 0, 0, 0, 0, 0], some fd) := by
  unfold handshake_s3
  rw [if_neg (by omega)]
  rfl

/-- Witness for C5 at the concrete descriptor 7. -/
theorem c5_success_reply_witness :
    handshake_s3 7 = ([5, 0, 0, 1, 0, 0, 0, 0, 0, 0], some 7) :=
  c5_success_reply 7 (by decide)

/-- C10: a 1-byte first message always yields AM_INVALID, so the handshake
replies `[0x05, 0xFF]` and terminates; the classification never depends on
buffer contents beyond the received length (the method-count byte and method
bytes are guarded by explicit index checks), so any two buffers are
classified identically at length 1. -/
theorem c10_short_greeting (buf buf2 : Nat → Nat) (c : sockaddr_union)
    (u : Bool) (ips : Option (List sockaddr_union)) :
    check_auth_method buf 1 c u ips = authmethod.am_invalid
    ∧ handshake_s1 buf 1 c u ips = ([5, 255], none)
    ∧ check_auth_method buf 1 c u ips = check_auth_method buf2 1 c u ips := by
  have h1 : ∀ b : Nat → Nat, check_auth_method b 1 c u ips = authmethod.am_invalid := by
    intro b
    unfold check_auth_method
    by_cases h : b 0 ≠ 5 <;> simp [h]
  exact ⟨h1 buf, by simp [handshake_s1, h1 buf, am_code], by rw [h1 buf, h1 buf2]⟩

/-- C9: with a secondary port configured, every worker - whether its client
socket came from accept or from a reverse-mode dial, and whatever credentials
are configured - runs the bridge path: it never runs the SOCKS handshake,
accepts exactly one connection on the secondary listener, and (when that
accept succeeds) relays raw bytes. -/
theorem c9_bridge_no_socks (port : Nat) (arr : arrival) (u : Bool)
    (sOk hOk : Bool) (h : port ≠ 0) :
    CTEv.handshakeRun ∉ worker_trace port arr u sOk hOk
    ∧ (worker_trace port arr u sOk hOk).count CTEv.acceptSecondary = 1
    ∧ (sOk = true → CTEv.relayRun ∈ worker_trace port arr u sOk hOk)
    ∧ (∀ (arr2 : arrival) (u2 : Bool),
        worker_trace port arr u sOk hOk = worker_trace port arr2 u2 sOk hOk) := by
  have ht : ∀ (a : arrival) (uu : Bool), worker_trace port a uu sOk hOk =
      (if sOk then
        [CTEv.acceptSecondary, CTEv.relayRun, CTEv.closeRemote, CTEv.closeClient]
       else [CTEv.acceptSecondary, CTEv.closeClient]) := by
    intro a uu
    have hb : connector_configured port = true := by
      simp [connector_configured, h]
    unfold worker_trace clientthread_trace
    rw [hb]
    simp
  refine ⟨?_, ?_, ?_, fun arr2 u2 => by rw [ht arr u, ht arr2 u2]⟩ <;>
    rw [ht arr u] <;> cases sOk <;> simp

/-- Witness for C9 at a concrete input: secondary port 1081, client obtained
by reverse-mode dial, credentials configured, both sockets obtained. -/
theorem c9_bridge_no_socks_witness :
    CTEv.handshakeRun ∉ worker_trace 1081 arrival.dialed true true true :=
  (c9_bridge_no_socks 1081 arrival.dialed true true true (by decide)).1

theorem reverse_sleep_le (k : Nat) : reverse_sleep k ≤ 60 := by
  cases k with
  | zero => simp [reverse_sleep]
  | succ m => simp [reverse_sleep]

theorem reverse_dial_sleeps (m : Nat) :
    ∀ k, reverse_dial_loop (reverse_sleep k) (List.replicate m false ++ [true])
      = some ((List.range m).map (fun i => reverse_sleep (k + i))) := by
  induction m with
  | zero => intro k; simp [reverse_dial_loop]
  | succ mm ih =>
    intro k
    have hstep : min (reverse_sleep k * 2) 60 = reverse_sleep (k + 1) := rfl
    have hfun : ((fun i => reverse_sleep (k + i)) ∘ Nat.succ)
        = (fun i => reverse_sleep ((k + 1) + i)) := by
      funext i
      show reverse_sleep (k + (i + 1)) = reverse_sleep ((k + 1) + i)
      congr 1
      omega
    simp only [List.replicate_succ, List.cons_append, reverse_dial_loop,
      Bool.false_eq_true, if_false, hstep, List.append_eq, ih (k + 1),
      List.range_succ_eq_map, List.map_cons, List.map_map,
      hfun, Nat.add_zero]
    rfl

theorem reverse_dial_no_success (m : Nat) :
    ∀ s, reverse_dial_loop s (List.replicate m false) = none := by
  induction m with
  | zero => intro s; rfl
  | succ mm ih =>
    intro s
    simp [List.replicate_succ, reverse_dial_loop, ih]

/-- C6 counterexample: after the 7th consecutive dial failure the code sleeps
`reverse_sleep 6 = 60` seconds, while a back-off doubling up to a 300-second
cap would sleep `min(2^6, 300) = 64` seconds - the cap in
src/sockssrv.c:557 is `MIN(sleeptime*2, 60)`, i.e. 60, not 300. -/
theorem c6_counterexample :
    reverse_sleep 6 = 60 ∧ spec_claim_sleep 6 = 64
    ∧ reverse_sleep 6 ≠ spec_claim_sleep 6 := by
  decide

/-- C6 amended: in reverse mode each failed dial of the configured upstream is
followed by a sleep that starts at 1 second and doubles after every failure up
to a cap of 60 seconds (not 300), and dialing is retried until it succeeds:
with m failures before the first success the loop performs exactly the sleeps
`reverse_sleep 0, ..., reverse_sleep (m-1)` and then returns the descriptor,
and with no success it keeps retrying. -/
theorem c6_backoff_cap_60 :
    reverse_sleep 0 = 1
    ∧ (∀ k, reverse_sleep k ≤ 60)
    ∧ (∀ k, reverse_sleep k * 2 ≤ 60 → reverse_sleep (k + 1) = reverse_sleep k * 2)
    ∧ (∀ k, 60 ≤ reverse_sleep k * 2 → reverse_sleep (k + 1) = 60)
    ∧ (∀ m, reverse_dial_loop 1 (List.replicate m false ++ [true])
        = some ((List.range m).map reverse_sleep))
    ∧ (∀ m, reverse_dial_loop 1 (List.replicate m false) = none) := by
  refine ⟨rfl, reverse_sleep_le, ?_, ?_, ?_, fun m => reverse_dial_no_success m 1⟩
  · intro k h
    simp [reverse_sleep, Nat.min_eq_left h]
  · intro k h
    simp [reverse_sleep, Nat.min_eq_right h]
  · intro m
    have := reverse_dial_sleeps m 0
    simpa using this

/-- Witness for C6's amended theorem at a concrete input: below the cap the
sleep after the 4th failure is twice the sleep after the 3rd (16 = 2 * 8). -/
theorem c6_backoff_cap_60_witness :
    reverse_sleep (3 + 1) = reverse_sleep 3 * 2 :=
  c6_backoff_cap_60.2.2.1 3 (by decide)

theorem find_first_pos (f : addrinfo_t → Bool) :
    ∀ (l : List addrinfo_t) (p : addrinfo_t), l.find? f = some p →
      ∃ i, i < l.length ∧ l[i]? = some p ∧ f p = true
        ∧ ∀ j, j < i → ∀ q, l[j]? = some q → f q = false := by
  intro l
  induction l with
  | nil => intro p h; simp [List.find?] at h
  | cons a as ih =>
    intro p h
    by_cases ha : f a = true
    · rw [List.find?_cons_of_pos _ ha] at h
      obtain rfl : a = p := by injection h
      exact ⟨0, by simp, by simp, ha, fun j hj => by omega⟩
    · rw [List.find?_cons_of_neg _ (by simpa using ha)] at h
      obtain ⟨i, hi, hg, hf, hj⟩ := ih p h
      refine ⟨i + 1, by simpa using hi, by simpa using hg, hf, ?_⟩
      intro j hj2 q hq
      cases j with
      | zero =>
        obtain rfl : a = q := by simpa using hq
        exact Bool.not_eq_true _ ▸ (by simpa using ha)
      | succ jj =>
        exact hj jj (by omega) q (by simpa using hq)

/-- C8: for every non-empty candidate list and every bind address,
`addr_choose` returns some candidate; it returns the head when the bind
address is unspecified or when no candidate's family matches; and when the
bind family is set and some candidate matches, the returned candidate is the
first one (smallest index) whose family equals the bind family. -/
theorem c8_addr_choose (l : List addrinfo_t) (b : sockaddr_union) (hl : l ≠ []) :
    (∃ a, addr_choose l b = some a)
    ∧ (b.fam = Fam.unspec → addr_choose l b = l.head?)
    ∧ ((∀ q ∈ l, q.fam ≠ b.fam) → addr_choose l b = l.head?)
    ∧ (∀ p, addr_choose l b = some p → b.fam ≠ Fam.unspec →
        (∃ q ∈ l, q.fam = b.fam) →
        p.fam = b.fam ∧ ∃ i, i < l.length ∧ l[i]? = some p
          ∧ ∀ j, j < i → ∀ q, l[j]? = some q → q.fam ≠ b.fam) := by
  have hhead : ∃ a, l.head? = some a := by
    cases l with
    | nil => exact absurd rfl hl
    | cons x xs => exact ⟨x, rfl⟩
  refine ⟨?_, ?_, ?_, ?_⟩
  · unfold addr_choose
    split
    · exact hhead
    · rcases hfind : l.find? (fun p => decide (p.fam = b.fam)) with _ | p
      · simp [hfind, hhead]
      · simp [hfind]
  · intro h
    simp [addr_choose, h]
  · intro h
    have hfind : l.find? (fun p => decide (p.fam = b.fam)) = none := by
      rw [List.find?_eq_none]
      intro q hq
      simpa using h q hq
    unfold addr_choose
    split
    · rfl
    · simp [hfind]
  · intro p hp hb hex
    have hfind : l.find? (fun p => decide (p.fam = b.fam)) = some p := by
      rcases hfind : l.find? (fun p => decide (p.fam = b.fam)) with _ | p2
      · rw [List.find?_eq_none] at hfind
        obtain ⟨q, hq, hqf⟩ := hex
        exact absurd (by simpa using hqf) (by simpa using hfind q hq)
      · unfold addr_choose at hp
        rw [if_neg hb, hfind] at hp
        injection hp with hp2
        rw [hfind]
        exact congrArg some hp2
    obtain ⟨i, hi, hg, hf, hj⟩ := find_first_pos _ l p hfind
    refine ⟨by simpa using hf, i, hi, hg, ?_⟩
    intro j hj2 q hq
    have := hj j hj2 q hq
    simpa using this

/-- Witness for C8 at a concrete input: bind address of family AF_INET6 and a
two-candidate list (IPv4 head, IPv6 second). -/
theorem c8_addr_choose_witness :
    ∃ a, addr_choose
        [{ fam := Fam.inet, tag := 0 }, { fam := Fam.inet6, tag := 1 }]
        { fam := Fam.inet6, addr := [], port := 0 } = some a :=
  (c8_addr_choose
    [{ fam := Fam.inet, tag := 0 }, { fam := Fam.inet6, tag := 1 }]
    { fam := Fam.inet6, addr := [], port := 0 } (by decide)).1

theorem cam_scan_eq (buf : Nat → Nat) (n : Nat) (c : sockaddr_union) (u : Bool)
    (ips : Option (List sockaddr_union)) :
    ∀ nm idx, cam_scan buf n c u ips idx nm
      = first_acceptable u (allowed_of c ips)
          ((List.range (min nm (n - idx))).map (fun i => buf (idx + i))) := by
  intro nm
  induction nm with
  | zero =>
    intro idx
    simp [cam_scan, first_acceptable]
  | succ m ih =>
    intro idx
    by_cases hidx : idx < n
    · have hmin : min (m + 1) (n - idx) = (min m (n - (idx + 1))) + 1 := by omega
      have hfun : ((fun i => buf (idx + i)) ∘ Nat.succ)
          = (fun i => buf ((idx + 1) + i)) := by
        funext i
        show buf (idx + (i + 1)) = buf ((idx + 1) + i)
        congr 1
        omega
      have hlist : (List.range (min (m + 1) (n - idx))).map (fun i => buf (idx + i))
          = buf idx :: (List.range (min m (n - (idx + 1)))).map
              (fun i => buf ((idx + 1) + i)) := by
        rw [hmin, List.range_succ_eq_map, List.map_cons, List.map_map, hfun,
          Nat.add_zero]
      rw [hlist]
      simp only [cam_scan, if_pos hidx]
      by_cases h0 : buf idx = 0
      · cases u with
        | false => simp [h0, first_acceptable, acceptable]
        | true =>
          cases ips with
          | none =>
            simp [h0, first_acceptable, acceptable, allowed_of, ih (idx + 1)]
          | some l =>
            by_cases hin : is_in_authed_list c l = true
            · simp [h0, first_acceptable, acceptable, allowed_of, hin]
            · simp only [Bool.not_eq_true] at hin
              simp [h0, first_acceptable, acceptable, allowed_of, hin, ih (idx + 1)]
      · by_cases h2 : buf idx = 2
        · cases u with
          | false =>
            simp [h0, h2, first_acceptable, acceptable, ih (idx + 1)]
          | true => simp [h0, h2, first_acceptable, acceptable]
        · simp [h0, h2, first_acceptable, acceptable, ih (idx + 1)]
    · have hz : n - idx = 0 := by omega
      simp [cam_scan, hidx, hz, first_acceptable]

/-- C1 counterexample: username configured, allowlist containing the peer, and
a greeting `05 02 02 00` offering USERNAME before NO_AUTH.  NO_AUTH is offered
and the peer is allowlisted, so the claim requires NO_AUTH and a transition to
S3_AUTHED; the code returns AM_USERNAME and moves to S2_NEED_AUTH, because the
scan of src/sockssrv.c:240-256 returns the first acceptable offered method in
the client's order. -/
theorem c1_counterexample :
    is_in_authed_list peer_addr [peer_addr] = true
    ∧ 0 ∈ greet_methods greet_user_first 4
    ∧ check_auth_method greet_user_first 4 peer_addr true (some [peer_addr])
        = authmethod.am_username
    ∧ check_auth_method greet_user_first 4 peer_addr true (some [peer_addr])
        ≠ authmethod.am_no_auth
    ∧ handshake_s1 greet_user_first 4 peer_addr true (some [peer_addr])
        = ([5, 2], some socksstate.ss_2_need_auth) := by
  refine ⟨by decide, by decide, by decide, by decide, by decide⟩

/-- C1 amended: in S1_CONNECTED, for every greeting whose first byte is 0x05
(and which carries the method-count byte), the server scans the offered
methods in the client's order and picks the first acceptable one: NO_AUTH
(0x00) is acceptable iff no username is configured or the allowlist is enabled
and contains the peer's address, USERNAME (0x02) is acceptable iff a username
is configured.  NO_AUTH then yields S3_AUTHED, USERNAME yields S2_NEED_AUTH,
and if no offered method is acceptable the server replies `[0x05, 0xFF]` and
terminates.  When no username is configured the choice of NO_AUTH is
independent of the order of the client's list; when a username is configured
and the peer is allowlisted, whichever of NO_AUTH / USERNAME comes first in
the client's list wins. -/
theorem c1_first_acceptable :
    (∀ (buf : Nat → Nat) (n : Nat) (c : sockaddr_union) (u : Bool)
        (ips : Option (List sockaddr_union)), buf 0 = 5 → 2 ≤ n →
        check_auth_method buf n c u ips
          = first_acceptable u (allowed_of c ips) (greet_methods buf n))
    ∧ (∀ (al : Bool) (ms : List Nat),
        first_acceptable false al ms
          = (if 0 ∈ ms then authmethod.am_no_auth else authmethod.am_invalid))
    ∧ (∀ (buf : Nat → Nat) (n : Nat) (c : sockaddr_union) (u : Bool)
        (ips : Option (List sockaddr_union)),
        (check_auth_method buf n c u ips = authmethod.am_no_auth →
          handshake_s1 buf n c u ips = ([5, 0], some socksstate.ss_3_authed))
        ∧ (check_auth_method buf n c u ips = authmethod.am_username →
          handshake_s1 buf n c u ips = ([5, 2], some socksstate.ss_2_need_auth))
        ∧ (check_auth_method buf n c u ips = authmethod.am_invalid →
          handshake_s1 buf n c u ips = ([5, 255], none))) := by
  refine ⟨?_, ?_, ?_⟩
  · intro buf n c u ips h5 hn
    unfold check_auth_method
    rw [if_neg (by simp [h5]), if_neg (by omega)]
    exact cam_scan_eq buf n c u ips (buf 1) 2
  · intro al ms
    induction ms with
    | nil => simp [first_acceptable]
    | cons m ms ih =>
      by_cases h0 : m = 0
      · simp [first_acceptable, acceptable, h0]
      · have hor : ((0 : Nat) = m ∨ 0 ∈ ms) ↔ 0 ∈ ms := by
          constructor
          · rintro (h | h)
            · omega
            · exact h
          · exact Or.inr
        by_cases h2 : m = 2
        · simp [first_acceptable, acceptable, h0, h2, ih, hor]
        · simp [first_acceptable, acceptable, h0, h2, ih, hor]
  · intro buf n c u ips
    refine ⟨fun h => ?_, fun h => ?_, fun h => ?_⟩ <;>
      simp [handshake_s1, h, am_code]

/-- Witness for C1's amended theorem at a concrete input: the greeting
`05 01 00` with no username configured. -/
theorem c1_first_acceptable_witness :
    check_auth_method greet_no_auth 3 peer_addr false none
      = first_acceptable false (allowed_of peer_addr none)
          (greet_methods greet_no_auth 3) :=
  c1_first_acceptable.1 greet_no_auth 3 peer_addr false none (by decide) (by decide)

theorem copyloop_uni_events (z : Bool) :
    ∀ (l : List IOEv) (ws : List WEv) (ev : CEv), ev ∈ copyloop_uni z l ws →
      ev = CEv.readC z ∨ ev = CEv.ret ∨ ∃ bs, ev = CEv.writeC (!z) bs := by
  intro l
  induction l with
  | nil =>
    intro ws ev h
    simp [copyloop_uni] at h
  | cons e rest ih =>
    intro ws ev h
    cases e with
    | readErr =>
      simp only [copyloop_uni, List.mem_cons, List.mem_singleton] at h
      rcases h with h | h | h
      · exact Or.inl h
      · exact Or.inr (Or.inl h)
      · simp at h
    | readRet bs =>
      cases bs with
      | nil =>
        simp only [copyloop_uni, List.mem_cons, List.mem_singleton] at h
        rcases h with h | h | h
        · exact Or.inl h
        · exact Or.inr (Or.inl h)
        · simp at h
      | cons b bs2 =>
        rcases hw : write_all 0 (b :: bs2).length ws with rest2 | _ | _
        · simp only [copyloop_uni, hw, List.mem_cons] at h
          rcases h with h | h | h
          · exact Or.inl h
          · exact Or.inr (Or.inr ⟨b :: bs2, h⟩)
          · exact ih rest2 ev h
        · simp only [copyloop_uni, hw, List.mem_cons, List.mem_singleton] at h
          rcases h with h | h | h
          · exact Or.inl h
          · exact Or.inr (Or.inl h)
          · simp at h
        · simp only [copyloop_uni, hw, List.mem_singleton] at h
          exact Or.inl h
    | pollReady1 => simp [copyloop_uni] at h
    | pollReady2 => simp [copyloop_uni] at h
    | pollTimeout => simp [copyloop_uni] at h
    | pollIntr => simp [copyloop_uni] at h
    | pollErr => simp [copyloop_uni] at h

/-- C3: when a read returns end-of-stream while both directions are live
(`bidir == 1`), `copyloop` shuts down the write half of the peer socket and
switches to the unidirectional phase; that phase never polls, reads only from
the still-live side, forwards only to the half-closed side, and on that
side's end-of-stream or read error it returns, whereupon `clientthread`
closes both descriptors. -/
theorem c3_half_close :
    (∀ (rest : List IOEv) (ws : List WEv) (z1 : Bool),
        copyloop_bid z1 (IOEv.pollReady1 :: IOEv.readRet [] :: rest) ws
          = CEv.pollC :: CEv.readC true :: CEv.shutdownWr false
              :: copyloop_uni false rest ws)
    ∧ (∀ (rest : List IOEv) (ws : List WEv) (z1 : Bool),
        copyloop_bid z1 (IOEv.pollReady2 :: IOEv.readRet [] :: rest) ws
          = CEv.pollC :: CEv.readC false :: CEv.shutdownWr true
              :: copyloop_uni true rest ws)
    ∧ (∀ (z : Bool) (l : List IOEv) (ws : List WEv),
        CEv.pollC ∉ copyloop_uni z l ws)
    ∧ (∀ (z : Bool) (l : List IOEv) (ws : List WEv) (s : Bool),
        CEv.readC s ∈ copyloop_uni z l ws → s = z)
    ∧ (∀ (z : Bool) (l : List IOEv) (ws : List WEv) (s : Bool) (bs : List Nat),
        CEv.writeC s bs ∈ copyloop_uni z l ws → s = !z)
    ∧ (∀ (z : Bool) (rest : List IOEv) (ws : List WEv),
        copyloop_uni z (IOEv.readRet [] :: rest) ws = [CEv.readC z, CEv.ret]
        ∧ copyloop_uni z (IOEv.readErr :: rest) ws = [CEv.readC z, CEv.ret]) := by
  refine ⟨fun _ _ _ => rfl, fun _ _ _ => rfl, ?_, ?_, ?_, fun _ _ _ => ⟨rfl, rfl⟩⟩
  · intro z l ws h
    rcases copyloop_uni_events z l ws CEv.pollC h with h1 | h1 | ⟨bs, h1⟩ <;>
      simp at h1
  · intro z l ws s h
    rcases copyloop_uni_events z l ws (CEv.readC s) h with h1 | h1 | ⟨bs, h1⟩
    · injection h1
    · injection h1
    · injection h1
  · intro z l ws s bs h
    rcases copyloop_uni_events z l ws (CEv.writeC s bs) h with h1 | h1 | ⟨bs2, h1⟩
    · injection h1
    · injection h1
    · injection h1

/-- Witness for C3 at a concrete input: in the unidirectional phase reading
from fd1, a 1-byte chunk delivered in one write, then end of stream. -/
theorem c3_half_close_witness :
    true = true ∧ (!true) = (!true) := by
  have hw : write_all 0 1 [WEv.wok 1] = WRes.ok [] := by
    simp [write_all]
  have htrace : copyloop_uni true [IOEv.readRet [7], IOEv.readRet []] [WEv.wok 1]
      = [CEv.readC true, CEv.writeC false [7], CEv.readC true, CEv.ret] := by
    simp [copyloop_uni, hw]
  have hread : CEv.readC true
      ∈ copyloop_uni true [IOEv.readRet [7], IOEv.readRet []] [WEv.wok 1] := by
    rw [htrace]
    simp
  have hwrite : CEv.writeC false [7]
      ∈ copyloop_uni true [IOEv.readRet [7], IOEv.readRet []] [WEv.wok 1] := by
    rw [htrace]
    simp
  exact ⟨c3_half_close.2.2.2.1 true [IOEv.readRet [7], IOEv.readRet []]
      [WEv.wok 1] true hread,
    c3_half_close.2.2.2.2.1 true [IOEv.readRet [7], IOEv.readRet []]
      [WEv.wok 1] false [7] hwrite ▸ rfl⟩

end RevMicroSocks
